import Mathlib

/-
  Verification of the change-set resolution and validation-orchestration
  engine of the validate-poweron-action repository.

  The definitions below are a shallow embedding of `src/validator.ts`
  (the version whose `ValidationResult` carries `validatedFiles`) and of
  the skip policy `getSkipReason`.  External effects (the `find` and
  `git` commands, the file system read, the remote transport) are passed
  in as explicit parameters, so every definition is executable.
-/

namespace PowerOnAction

/-! ## String and path primitives

JavaScript string operations used by the source, modelled over `List Char`
so that everything evaluates inside the kernel. -/

/-- `line.trim()`: drop ASCII whitespace from both ends of a character list. -/
def trimChars (s : List Char) : List Char :=
  ((s.dropWhile Char.isWhitespace).reverse.dropWhile Char.isWhitespace).reverse

/-- Auxiliary splitter: JavaScript `String.prototype.split` with a
single-character separator, accumulator-style. -/
def jsSplitAux (sep : Char) : List Char → List Char → List String
  | [], acc => [String.mk acc.reverse]
  | c :: cs, acc =>
    if c = sep then String.mk acc.reverse :: jsSplitAux sep cs []
    else jsSplitAux sep cs (c :: acc)

/-- JavaScript `s.split(sep)` for a one-character separator. -/
def jsSplit (sep : Char) (s : String) : List String :=
  jsSplitAux sep s.data []

/-- The line filter `output.split('\n').filter((l) => l.trim().length > 0)`. -/
def nonEmptyLines (s : String) : List String :=
  (jsSplit '\n' s).filter (fun l => !(trimChars l.data).isEmpty)

/-- Character-list core of Node `path.basename`: drop trailing slashes,
then keep everything after the last slash. -/
def basenameChars (s : List Char) : List Char :=
  (((s.reverse.dropWhile (· = '/')).takeWhile (· ≠ '/')).reverse)

/-- Node `path.basename`. -/
def basename (s : String) : String :=
  String.mk (basenameChars s.data)

/-- Character-list core of Node `path.extname`: the suffix of the basename
from its last dot, empty when there is no dot or the dot is the first
character of the basename. -/
def extnameChars (b : List Char) : List Char :=
  let tail := b.reverse.takeWhile (· ≠ '.')
  if tail.length = b.length then []
  else if tail.length + 1 = b.length then []
  else '.' :: tail.reverse

/-- Node `path.extname`. -/
def extname (s : String) : String :=
  String.mk (extnameChars (basenameChars s.data))

/-- Node `path.isAbsolute` for POSIX paths. -/
def isAbsolute (p : String) : Bool :=
  match p.data with
  | '/' :: _ => true
  | _ => false

/-- Node `path.join(workspace, f)` as used by the source (plain separator
insertion; `path.join('', f)` is `f`). -/
def joinPath (a b : String) : String :=
  if a = "" then b else a ++ "/" ++ b

/-- The source computes
`path.isAbsolute(filePath) ? filePath : path.join(GITHUB_WORKSPACE or '', filePath)`. -/
def fullPath (workspace f : String) : String :=
  if isAbsolute f then f else joinPath workspace f

/-- The ASCII apostrophe character, used in the branch-not-found message. -/
def apos : String :=
  String.singleton (Char.ofNat 39)

/-- JavaScript `s.toUpperCase()`, over the character list. -/
def toUpperStr (s : String) : String :=
  String.mk (s.data.map Char.toUpper)

/-! ## Skip policy (`getSkipReason` in `src/validator.ts`)

The text-classification helpers imported from `@libum-llc/symitar`
(`shouldValidatePowerOnByExtension`, `removeBlockComments`,
`getFirstWord`, `hasTargetDivision`, `hasPrintDivision`) are external
collaborators of the repository.  They are abstracted into a record so
that theorems about the policy hold for every implementation of the
collaborator contract; a concrete model of the contract follows below. -/

/-- The external file-classification helpers consumed by the skip policy. -/
structure FileClassifier where
  shouldValidatePowerOnByExtension : String → Bool
  removeBlockComments : String → String
  getFirstWord : String → String
  hasTargetDivision : String → Bool
  hasPrintDivision : String → Bool

/-- `getSkipReason(filePath)` from `src/validator.ts`.  The asynchronous
`fs.promises.readFile` is modelled by the `readResult` parameter:
`some content` is a successful read, `none` a read that threw (the
source catches the throw and returns `null`).  The result is `none`
when the file should be validated, `some reason` when it is skipped. -/
def getSkipReason (C : FileClassifier) (filePath : String)
    (readResult : Option String) : Option String :=
  let ext := toUpperStr (extname filePath)
  if !(C.shouldValidatePowerOnByExtension filePath) then
    some (ext ++ " files are include/procedure files (not validated standalone)")
  else
    match readResult with
    | none => none
    | some content =>
      let contentNoComments := C.removeBlockComments content
      let firstWord := C.getFirstWord content
      if toUpperStr firstWord = "PROCEDURE" then
        some "file is a PROCEDURE (not a specfile)"
      else
        let hasTarget := C.hasTargetDivision contentNoComments
        let hasPrint := C.hasPrintDivision contentNoComments
        if !hasTarget && !hasPrint then
          some "missing TARGET and PRINT TITLE divisions"
        else if !hasTarget then
          some "missing TARGET division"
        else if !hasPrint then
          some "missing PRINT TITLE division"
        else
          none

/-! ### A concrete model of the classifier contract -/

/-- Does `pat` occur at the head of `s`? -/
def startsChars : List Char → List Char → Bool
  | [], _ => true
  | _ :: _, [] => false
  | a :: as, b :: bs => a = b && startsChars as bs

/-- Does `pat` occur anywhere inside `s`? -/
def containsSub (pat : List Char) : List Char → Bool
  | [] => startsChars pat []
  | c :: cs => startsChars pat (c :: cs) || containsSub pat cs

/-- Modelled from the spec: the comment-stripping text utility of the
external file classifier (`removeBlockComments` in `@libum-llc/symitar`,
not part of this repository).  PowerOn block comments are bracketed
`[ ... ]` sections; the model deletes every bracketed section. -/
def stripCommentsAux : Bool → List Char → List Char
  | _, [] => []
  | true, c :: cs => if c = ']' then stripCommentsAux false cs else stripCommentsAux true cs
  | false, c :: cs => if c = '[' then stripCommentsAux true cs else c :: stripCommentsAux false cs

/-- Modelled from the spec: comment stripping over strings. -/
def removeBlockComments (s : String) : String :=
  String.mk (stripCommentsAux false s.data)

/-- Modelled from the spec: the first-token extraction utility of the
external file classifier (`getFirstWord` in `@libum-llc/symitar`, not
part of this repository): the first maximal run of non-whitespace
characters. -/
def getFirstWord (s : String) : String :=
  String.mk ((s.data.dropWhile Char.isWhitespace).takeWhile (fun c => !c.isWhitespace))

/-- Modelled from the spec: detection of the required target division
(`hasTargetDivision` in `@libum-llc/symitar`, not part of this
repository). -/
def hasTargetDivision (s : String) : Bool :=
  containsSub ("TARGET").data s.data

/-- Modelled from the spec: detection of the required print-title division
(`hasPrintDivision` in `@libum-llc/symitar`, not part of this
repository). -/
def hasPrintDivision (s : String) : Bool :=
  containsSub ("PRINT TITLE").data s.data

/-- Modelled from the spec: the include/procedure extension set (definition,
procedure, settings, form and subroutine files). -/
def skipExtensions : List String :=
  [".DEF", ".PRO", ".SET", ".FMP", ".SUB"]

/-- Modelled from the spec: the extension policy of the external file
classifier (`shouldValidatePowerOnByExtension` in `@libum-llc/symitar`,
not part of this repository): a file is validated unless its uppercased
extension is in the include/procedure set. -/
def shouldValidatePowerOnByExtension (p : String) : Bool :=
  !(skipExtensions.contains (toUpperStr (extname p)))

/-- The concrete classifier built from the modelled helpers. -/
def modelClassifier : FileClassifier :=
  { shouldValidatePowerOnByExtension := shouldValidatePowerOnByExtension
    removeBlockComments := removeBlockComments
    getFirstWord := getFirstWord
    hasTargetDivision := hasTargetDivision
    hasPrintDivision := hasPrintDivision }

/-! ## Change-set resolver (`getChangedFiles` in `src/validator.ts`)

The external commands are black boxes supplying text: `findOutput` is the
stdout of the `find` invocation (full-scan mode), `revParse ref` tells
whether `git rev-parse --verify ref` exited with code 0, and `diffOut ref`
is the stdout of `git diff --name-status ref -- <dir>`.  The external
`getSkipReasonForFile` and `isPowerOnFile` helpers are parameters
`skipF` and `isPO`.  The `poweronDirectory` argument only reaches the
black-box commands, so it is absorbed into `findOutput` and `diffOut`. -/

/-- A candidate file produced by the resolver. -/
structure ChangedFile where
  filePath : String
  status : String
  deriving DecidableEq

/-- `targetBranch.replace(/^origin\//, '')`. -/
def stripOrigin (s : String) : String :=
  match s.data with
  | 'o' :: 'r' :: 'i' :: 'g' :: 'i' :: 'n' :: '/' :: rest => String.mk rest
  | _ => s

/-- The ordered candidate list `branchVariants` from the source. -/
def branchVariants (targetBranch : String) : List String :=
  let branchName := stripOrigin targetBranch
  [targetBranch,
   "refs/remotes/origin/" ++ branchName,
   branchName,
   "refs/heads/" ++ branchName,
   "remotes/origin/" ++ branchName]

/-- The variant loop: the first variant for which `git rev-parse --verify`
succeeds, `none` when every variant fails. -/
def resolveBranch (revParse : String → Bool) (targetBranch : String) : Option String :=
  (branchVariants targetBranch).find? revParse

/-- The error thrown when no branch variant resolves. -/
def branchNotFoundMsg (targetBranch : String) : String :=
  "Target branch " ++ apos ++ targetBranch ++ apos ++
    " not found. Make sure you have checked out with sufficient depth (fetch-depth: 0) and the branch exists."

/-- `status === 'A' ? 'added' : status === 'M' ? 'modified' : status`. -/
def normalizeStatus (status : String) : String :=
  if status = "A" then "added" else if status = "M" then "modified" else status

/-- The body of the diff-mode loop once a line has been split on tabs
(`parts = line.split('\t')`): the `parts.length >= 2` guard, the
deleted/ignored/PowerOn checks, the skip policy, and the status
normalization. -/
def processDiffParts (skipF : String → Option String) (isPO : String → Bool)
    (ignoreList : List String) (workspace : String) :
    List String → Option ChangedFile
  | status :: filePath :: _ =>
    if status = "D" then none
    else if ignoreList.contains (basename filePath) then none
    else if !(isPO filePath) then none
    else
      match skipF (fullPath workspace filePath) with
      | some _ => none
      | none => some { filePath := filePath, status := normalizeStatus status }
  | _ => none

/-- The body of the diff-mode loop for one line of `git diff --name-status`
output: `none` when the line is dropped, `some c` when it yields a
candidate. -/
def processDiffLine (skipF : String → Option String) (isPO : String → Bool)
    (ignoreList : List String) (workspace : String) (line : String) :
    Option ChangedFile :=
  processDiffParts skipF isPO ignoreList workspace (jsSplit '\t' line)

/-- The full-scan loop: ignore-list check, then the skip policy, keeping
survivors with status `existing`. -/
def fullScanFilter (skipF : String → Option String) (ignoreList : List String)
    (workspace : String) : List String → List ChangedFile
  | [] => []
  | f :: rest =>
    if ignoreList.contains (basename f) then
      fullScanFilter skipF ignoreList workspace rest
    else
      match skipF (fullPath workspace f) with
      | some _ => fullScanFilter skipF ignoreList workspace rest
      | none => { filePath := f, status := "existing" } :: fullScanFilter skipF ignoreList workspace rest

/-- `getChangedFiles` from `src/validator.ts`.  `targetBranch = ""` models
the absent (or empty, hence falsy) target branch.  A thrown error becomes
`Except.error`. -/
def getChangedFiles (findOutput : String) (revParse : String → Bool)
    (diffOut : String → String) (skipF : String → Option String)
    (isPO : String → Bool) (workspace : String) (targetBranch : String)
    (ignoreList : List String) : Except String (List ChangedFile) :=
  if targetBranch = "" then
    Except.ok (fullScanFilter skipF ignoreList workspace (nonEmptyLines findOutput))
  else
    match resolveBranch revParse targetBranch with
    | none => Except.error (branchNotFoundMsg targetBranch)
    | some ref =>
      Except.ok ((nonEmptyLines (diffOut ref)).filterMap
        (processDiffLine skipF isPO ignoreList workspace))

/-! ## Validation dispatchers (`validateWithSSH`, `validateWithHTTPs`)

The remote transport is a black box; the outcome of the `i`-th
`validatePowerOn` call is supplied by a function `t : Nat → Outcome`.
Session setup can itself fail, which the run inductives record.  Each
dispatcher returns the `Except` outcome of the async function together
with the number of times `client.end()` was invoked. -/

/-- The run's final artifact. -/
structure ValidationResult where
  filesValidated : Nat
  filesPassed : Nat
  filesFailed : Nat
  errors : List String
  validatedFiles : List String
  deriving DecidableEq

/-- One remote `validatePowerOn` call, as observed by the dispatcher:
a valid result, an invalid result carrying `errors` (a list of strings
or a single string), or a raised/rejected call whose message (or string
form) is `msg`. -/
inductive Outcome where
  | valid
  | invalid (errs : List String ⊕ String)
  | exception (msg : String)

/-- `Array.isArray(result.errors) ? result.errors.join('\n') : result.errors`. -/
def joinErrors : List String ⊕ String → String
  | Sum.inl l => String.intercalate "\n" l
  | Sum.inr s => s

/-- The mutable loop state of a dispatcher: `errors`, `validatedFiles`
and `filesFailed`. -/
structure LoopState where
  errors : List String
  validatedFiles : List String
  filesFailed : Nat
  deriving DecidableEq

/-- The shared per-file loop of both dispatchers: push the basename onto
`validatedFiles`, then classify the transport outcome, converting an
invalid result or a caught exception into one error entry prefixed with
the basename. -/
def runLoop (t : Nat → Outcome) : Nat → List ChangedFile → LoopState → LoopState
  | _, [], st => st
  | i, f :: rest, st =>
    let fileName := basename f.filePath
    let st1 : LoopState :=
      { errors := st.errors
        validatedFiles := st.validatedFiles ++ [fileName]
        filesFailed := st.filesFailed }
    let st2 : LoopState :=
      match t i with
      | Outcome.valid => st1
      | Outcome.invalid errs =>
        { errors := st1.errors ++ [fileName ++ ": " ++ joinErrors errs]
          validatedFiles := st1.validatedFiles
          filesFailed := st1.filesFailed + 1 }
      | Outcome.exception m =>
        { errors := st1.errors ++ [fileName ++ ": " ++ m]
          validatedFiles := st1.validatedFiles
          filesFailed := st1.filesFailed + 1 }
    runLoop t (i + 1) rest st2

/-- The result record both dispatchers build after the loop. -/
def mkResult (files : List ChangedFile) (st : LoopState) : ValidationResult :=
  { filesValidated := files.length
    filesPassed := files.length - st.filesFailed
    filesFailed := st.filesFailed
    errors := st.errors
    validatedFiles := st.validatedFiles }

/-- How one run of `validateWithSSH` unfolds.  `setupFail` covers a throw
from `new SymitarSSH(...)` or a rejection of `await client.isReady`, both
of which happen before the `try` block; `workerFail` a rejection of
`createValidateWorker` inside the `try`; `run t` a run whose per-file
transport outcomes are given by `t`. -/
inductive SSHRun where
  | setupFail (msg : String)
  | workerFail (msg : String)
  | run (t : Nat → Outcome)

/-- How one run of `validateWithHTTPs` unfolds.  `setupFail` covers a
throw from `new SymitarHTTPs(...)`, which happens before the `try`
block; `run t` a run with per-file outcomes `t`. -/
inductive HTTPsRun where
  | setupFail (msg : String)
  | run (t : Nat → Outcome)

/-- `validateWithSSH` from `src/validator.ts`: the `finally` block runs
`await client.end()` whenever the `try` block was entered, so the
end-call count is 0 when setup fails before the `try` and 1 otherwise. -/
def validateWithSSH (files : List ChangedFile) :
    SSHRun → Except String ValidationResult × Nat
  | SSHRun.setupFail m => (Except.error m, 0)
  | SSHRun.workerFail m => (Except.error m, 1)
  | SSHRun.run t =>
    (Except.ok (mkResult files (runLoop t 0 files { errors := [], validatedFiles := [], filesFailed := 0 })), 1)

/-- `validateWithHTTPs` from `src/validator.ts`: the `finally` block runs
`client.end()` whenever the `try` block was entered. -/
def validateWithHTTPs (files : List ChangedFile) :
    HTTPsRun → Except String ValidationResult × Nat
  | HTTPsRun.setupFail m => (Except.error m, 0)
  | HTTPsRun.run t =>
    (Except.ok (mkResult files (runLoop t 0 files { errors := [], validatedFiles := [], filesFailed := 0 })), 1)

/-! ## Structural descriptions of the loop -/

/-- The error entry, if any, that one outcome contributes for a file. -/
def fileErrorEntry (o : Outcome) (fileName : String) : Option String :=
  match o with
  | Outcome.valid => none
  | Outcome.invalid errs => some (fileName ++ ": " ++ joinErrors errs)
  | Outcome.exception m => some (fileName ++ ": " ++ m)

/-- The error list the loop produces from position `i` on. -/
def loopErrors (t : Nat → Outcome) : Nat → List ChangedFile → List String
  | _, [] => []
  | i, f :: rest =>
    match fileErrorEntry (t i) (basename f.filePath) with
    | some e => e :: loopErrors t (i + 1) rest
    | none => loopErrors t (i + 1) rest

/-- The number of failed files from position `i` on. -/
def countFailed (t : Nat → Outcome) : Nat → List ChangedFile → Nat
  | _, [] => 0
  | i, f :: rest =>
    match fileErrorEntry (t i) (basename f.filePath) with
    | some _ => countFailed t (i + 1) rest + 1
    | none => countFailed t (i + 1) rest

theorem fileErrorEntry_shape (o : Outcome) (bn e : String)
    (h : fileErrorEntry o bn = some e) : ∃ msg, e = bn ++ ": " ++ msg := by
  cases o with
  | valid => simp [fileErrorEntry] at h
  | invalid errs =>
    simp only [fileErrorEntry] at h
    exact ⟨joinErrors errs, (Option.some.inj h).symm⟩
  | exception m =>
    simp only [fileErrorEntry] at h
    exact ⟨m, (Option.some.inj h).symm⟩

theorem runLoop_spec (t : Nat → Outcome) (fs : List ChangedFile) :
    ∀ (i : Nat) (st : LoopState),
      runLoop t i fs st =
        { errors := st.errors ++ loopErrors t i fs
          validatedFiles := st.validatedFiles ++ fs.map (fun f => basename f.filePath)
          filesFailed := st.filesFailed + countFailed t i fs } := by
  induction fs with
  | nil => intro i st; simp [runLoop, loopErrors, countFailed]
  | cons f rest ih =>
    intro i st
    simp only [runLoop]
    cases h : t i with
    | valid =>
      rw [ih]
      simp [loopErrors, countFailed, fileErrorEntry, h, List.append_assoc]
    | invalid errs =>
      rw [ih]
      simp only [loopErrors, countFailed, fileErrorEntry, h, List.append_assoc,
        List.map_cons, List.singleton_append, LoopState.mk.injEq]
      refine ⟨trivial, trivial, ?_⟩
      omega
    | exception m =>
      rw [ih]
      simp only [loopErrors, countFailed, fileErrorEntry, h, List.append_assoc,
        List.map_cons, List.singleton_append, LoopState.mk.injEq]
      refine ⟨trivial, trivial, ?_⟩
      omega

theorem loopErrors_length (t : Nat → Outcome) (fs : List ChangedFile) :
    ∀ i, (loopErrors t i fs).length = countFailed t i fs := by
  induction fs with
  | nil => intro i; simp [loopErrors, countFailed]
  | cons f rest ih =>
    intro i
    simp only [loopErrors, countFailed]
    cases fileErrorEntry (t i) (basename f.filePath) <;> simp [ih]

theorem countFailed_le (t : Nat → Outcome) (fs : List ChangedFile) :
    ∀ i, countFailed t i fs ≤ fs.length := by
  induction fs with
  | nil => intro i; simp [countFailed]
  | cons f rest ih =>
    intro i
    simp only [countFailed, List.length_cons]
    cases fileErrorEntry (t i) (basename f.filePath) with
    | none => exact Nat.le_succ_of_le (ih _)
    | some e => exact Nat.succ_le_succ (ih _)

theorem loopErrors_mem (t : Nat → Outcome) (fs : List ChangedFile) :
    ∀ i e, e ∈ loopErrors t i fs →
      ∃ f, f ∈ fs ∧ ∃ msg, e = basename f.filePath ++ ": " ++ msg := by
  induction fs with
  | nil => intro i e h; simp [loopErrors] at h
  | cons f rest ih =>
    intro i e h
    simp only [loopErrors] at h
    cases hf : fileErrorEntry (t i) (basename f.filePath) with
    | none =>
      rw [hf] at h
      obtain ⟨g, hg, m, hm⟩ := ih _ _ h
      exact ⟨g, List.mem_cons_of_mem _ hg, m, hm⟩
    | some e0 =>
      rw [hf] at h
      rcases List.mem_cons.mp h with heq | htail
      · obtain ⟨msg, hmsg⟩ := fileErrorEntry_shape _ _ _ hf
        exact ⟨f, List.mem_cons_self _ _, msg, heq ▸ hmsg⟩
      · obtain ⟨g, hg, m, hm⟩ := ih _ _ htail
        exact ⟨g, List.mem_cons_of_mem _ hg, m, hm⟩

theorem loopErrors_exception_mem (t : Nat → Outcome) (fs : List ChangedFile) :
    ∀ (i j : Nat) (hj : j < fs.length) (m : String),
      t (i + j) = Outcome.exception m →
      basename (fs.get ⟨j, hj⟩).filePath ++ ": " ++ m ∈ loopErrors t i fs := by
  induction fs with
  | nil => intro i j hj m ht; simp at hj
  | cons f rest ih =>
    intro i j hj m ht
    cases j with
    | zero =>
      rw [Nat.add_zero] at ht
      simp only [loopErrors, List.get, fileErrorEntry, ht]
      exact List.mem_cons_self _ _
    | succ k =>
      have ht' : t ((i + 1) + k) = Outcome.exception m := by
        rw [show (i + 1) + k = i + (k + 1) from by omega]
        exact ht
      have hk : k < rest.length := Nat.lt_of_succ_lt_succ hj
      have hmem := ih (i + 1) k hk m ht'
      simp only [loopErrors, List.get]
      cases hf : fileErrorEntry (t i) (basename f.filePath) with
      | none => exact hmem
      | some e0 => exact List.mem_cons_of_mem _ hmem

/-! ## Claims about the skip policy -/

/-- Claim C6: for every file whose extension is in the include/procedure
skip set (the extension policy rejects it), the skip policy returns the
extension-based skip reason identically for every possible read outcome —
the decision is made on the extension alone, so no content-based reason
or content error can surface for such a file. -/
theorem C6_extension_skip_before_read (C : FileClassifier) (p : String)
    (h : C.shouldValidatePowerOnByExtension p = false) (r₁ r₂ : Option String) :
    getSkipReason C p r₁ = getSkipReason C p r₂ ∧
    getSkipReason C p r₁ =
      some (toUpperStr (extname p) ++
        " files are include/procedure files (not validated standalone)") := by
  simp [getSkipReason, h]

/-- Witness for C6 at a concrete include file with specfile-looking content. -/
theorem C6_extension_skip_before_read_witness :
    getSkipReason modelClassifier ("REPWRITERSPECS/UTILS.DEF") (some ("TARGET=X PRINT TITLE=Y")) =
      getSkipReason modelClassifier ("REPWRITERSPECS/UTILS.DEF") none ∧
    getSkipReason modelClassifier ("REPWRITERSPECS/UTILS.DEF") (some ("TARGET=X PRINT TITLE=Y")) =
      some (".DEF files are include/procedure files (not validated standalone)") := by
  have h := C6_extension_skip_before_read modelClassifier ("REPWRITERSPECS/UTILS.DEF")
    (by decide) (some ("TARGET=X PRINT TITLE=Y")) none
  refine ⟨h.1, ?_⟩
  rw [h.2]
  decide

/-- Claim C7: for a readable file that passes the extension and
procedure-keyword checks, a missing target division, a missing
print-title division, both missing, or neither missing produce,
respectively, a reason naming only the missing one, a distinct combined
reason, or no skip at all. -/
theorem C7_missing_division_reasons (C : FileClassifier) (p content : String)
    (hext : C.shouldValidatePowerOnByExtension p = true)
    (hword : toUpperStr (C.getFirstWord content) ≠ "PROCEDURE") :
    (C.hasTargetDivision (C.removeBlockComments content) = false →
      C.hasPrintDivision (C.removeBlockComments content) = false →
      getSkipReason C p (some content) = some "missing TARGET and PRINT TITLE divisions") ∧
    (C.hasTargetDivision (C.removeBlockComments content) = false →
      C.hasPrintDivision (C.removeBlockComments content) = true →
      getSkipReason C p (some content) = some "missing TARGET division") ∧
    (C.hasTargetDivision (C.removeBlockComments content) = true →
      C.hasPrintDivision (C.removeBlockComments content) = false →
      getSkipReason C p (some content) = some "missing PRINT TITLE division") ∧
    (C.hasTargetDivision (C.removeBlockComments content) = true →
      C.hasPrintDivision (C.removeBlockComments content) = true →
      getSkipReason C p (some content) = none) := by
  refine ⟨?_, ?_, ?_, ?_⟩ <;> intro h1 h2 <;> simp [getSkipReason, hext, hword, h1, h2]

/-- Witness for C7: all four division cases at concrete contents. -/
theorem C7_missing_division_reasons_witness :
    getSkipReason modelClassifier ("A.PO") (some ("DEFINE END")) =
      some "missing TARGET and PRINT TITLE divisions" ∧
    getSkipReason modelClassifier ("A.PO") (some ("PRINT TITLE=Y END")) =
      some "missing TARGET division" ∧
    getSkipReason modelClassifier ("A.PO") (some ("TARGET=X END")) =
      some "missing PRINT TITLE division" ∧
    getSkipReason modelClassifier ("A.PO") (some ("TARGET=X PRINT TITLE=Y")) = none := by
  refine ⟨?_, ?_, ?_, ?_⟩
  · exact (C7_missing_division_reasons modelClassifier ("A.PO") ("DEFINE END")
      (by decide) (by decide)).1 (by decide) (by decide)
  · exact (C7_missing_division_reasons modelClassifier ("A.PO") ("PRINT TITLE=Y END")
      (by decide) (by decide)).2.1 (by decide) (by decide)
  · exact (C7_missing_division_reasons modelClassifier ("A.PO") ("TARGET=X END")
      (by decide) (by decide)).2.2.1 (by decide) (by decide)
  · exact (C7_missing_division_reasons modelClassifier ("A.PO") ("TARGET=X PRINT TITLE=Y")
      (by decide) (by decide)).2.2.2 (by decide) (by decide)

/-- Claim C8: when the file's content cannot be read (and the extension
policy passed, which is the only way the read is reached), the policy
fails open and returns no skip reason, keeping the file in scope. -/
theorem C8_unreadable_fails_open (C : FileClassifier) (p : String)
    (h : C.shouldValidatePowerOnByExtension p = true) :
    getSkipReason C p none = none := by
  simp [getSkipReason, h]

/-- Witness for C8 at a concrete specification file. -/
theorem C8_unreadable_fails_open_witness :
    getSkipReason modelClassifier ("REPWRITERSPECS/GOOD.PO") none = none :=
  C8_unreadable_fails_open modelClassifier ("REPWRITERSPECS/GOOD.PO") (by decide)

/-- A sample file content whose comment-stripped form begins with the
PROCEDURE keyword while both divisions are present. -/
def procSample : String :=
  "[HEADER] PROCEDURE FOO TARGET=X PRINT TITLE=Y"

/-- Claim C3 counterexample: a `.PO` file whose comment-stripped content
has first significant token PROCEDURE and which contains both divisions,
yet the policy does not skip it at all — because the source inspects the
first token of the raw content (`getFirstWord(content)`), not of the
stripped content, the procedure-specific reason asserted by the claim is
not produced. -/
theorem C3_counterexample :
    toUpperStr (modelClassifier.getFirstWord
      (modelClassifier.removeBlockComments procSample)) = "PROCEDURE" ∧
    modelClassifier.hasTargetDivision (modelClassifier.removeBlockComments procSample) = true ∧
    modelClassifier.hasPrintDivision (modelClassifier.removeBlockComments procSample) = true ∧
    modelClassifier.shouldValidatePowerOnByExtension ("SPEC.PO") = true ∧
    getSkipReason modelClassifier ("SPEC.PO") (some procSample) = none := by
  decide

/-- Claim C3 (amended): the skip policy strips block comments only for
the division checks; the PROCEDURE check inspects the first significant
token of the raw file content, and when that raw first token is
PROCEDURE (case-insensitive) the file is skipped with the
procedure-specific reason, even if it contains both divisions. -/
theorem C3_raw_first_token_procedure (C : FileClassifier) (p content : String)
    (hext : C.shouldValidatePowerOnByExtension p = true)
    (hword : toUpperStr (C.getFirstWord content) = "PROCEDURE") :
    getSkipReason C p (some content) = some "file is a PROCEDURE (not a specfile)" := by
  simp [getSkipReason, hext, hword]

/-- Witness for the amended C3: a raw-PROCEDURE file containing both
divisions is still skipped with the procedure reason. -/
theorem C3_raw_first_token_procedure_witness :
    getSkipReason modelClassifier ("PROC.PO") (some ("PROCEDURE FOO TARGET=X PRINT TITLE=Y")) =
      some "file is a PROCEDURE (not a specfile)" :=
  C3_raw_first_token_procedure modelClassifier ("PROC.PO")
    ("PROCEDURE FOO TARGET=X PRINT TITLE=Y") (by decide) (by decide)

/-! ## Claims about the dispatchers -/

/-- Claim C2 counterexample: when SSH session setup fails (the
`await client.isReady` rejection happens before the `try` block), the
dispatcher exits exceptionally without ever invoking `client.end()`, so
cleanup is not invoked exactly once on that exit path. -/
theorem C2_counterexample :
    (validateWithSSH [] (SSHRun.setupFail "ssh session never became ready")).1 =
      Except.error "ssh session never became ready" ∧
    (validateWithSSH [] (SSHRun.setupFail "ssh session never became ready")).2 ≠ 1 :=
  ⟨rfl, by decide⟩

/-- Claim C2 (amended): for both dispatchers, `client.end()` is invoked
exactly once on every exit path reached after session setup succeeds —
a normal run (whatever the per-file outcomes, including thrown per-file
validations) and, for SSH, a failing `createValidateWorker` — while an
exception during session setup itself (before the `try` block) exits
without invoking cleanup. -/
theorem C2_cleanup_once_after_setup (files : List ChangedFile) :
    (∀ t, (validateWithSSH files (SSHRun.run t)).2 = 1) ∧
    (∀ m, (validateWithSSH files (SSHRun.workerFail m)).2 = 1) ∧
    (∀ m, (validateWithSSH files (SSHRun.setupFail m)).2 = 0) ∧
    (∀ t, (validateWithHTTPs files (HTTPsRun.run t)).2 = 1) ∧
    (∀ m, (validateWithHTTPs files (HTTPsRun.setupFail m)).2 = 0) :=
  ⟨fun _ => rfl, fun _ => rfl, fun _ => rfl, fun _ => rfl, fun _ => rfl⟩

/-- Claim C1: whichever dispatcher runs, for every candidate list and
every sequence of per-file transport outcomes, a returned
`ValidationResult` satisfies
`filesValidated = filesPassed + filesFailed = |validatedFiles|`, its
`errors` list has exactly `filesFailed` entries, and every entry is
prefixed with a candidate file's basename followed by a colon and a
space. -/
theorem C1_result_invariants (files : List ChangedFile) (rs : SSHRun) (rh : HTTPsRun)
    (res : ValidationResult)
    (h : (validateWithSSH files rs).1 = Except.ok res ∨
         (validateWithHTTPs files rh).1 = Except.ok res) :
    res.filesValidated = res.filesPassed + res.filesFailed ∧
    res.filesValidated = res.validatedFiles.length ∧
    res.errors.length = res.filesFailed ∧
    ∀ e ∈ res.errors, ∃ f, f ∈ files ∧ ∃ msg, e = basename f.filePath ++ ": " ++ msg := by
  obtain ⟨t, ht⟩ : ∃ t : Nat → Outcome,
      res = mkResult files
        (runLoop t 0 files { errors := [], validatedFiles := [], filesFailed := 0 }) := by
    rcases h with h | h
    · cases rs with
      | setupFail m => exact absurd h (by simp [validateWithSSH])
      | workerFail m => exact absurd h (by simp [validateWithSSH])
      | run t => exact ⟨t, by simpa [validateWithSSH] using h.symm⟩
    · cases rh with
      | setupFail m => exact absurd h (by simp [validateWithHTTPs])
      | run t => exact ⟨t, by simpa [validateWithHTTPs] using h.symm⟩
  subst ht
  rw [runLoop_spec]
  simp only [mkResult, List.nil_append, Nat.zero_add, List.length_map]
  have hle := countFailed_le t files 0
  refine ⟨by omega, by simp, loopErrors_length t files 0, ?_⟩
  intro e he
  exact loopErrors_mem t files 0 e he

/-- Witness for C1 on a one-file SSH run whose single validation passes. -/
theorem C1_result_invariants_witness :
    (let res : ValidationResult :=
      { filesValidated := 1, filesPassed := 1, filesFailed := 0,
        errors := [], validatedFiles := ["GOOD.PO"] }
    res.filesValidated = res.filesPassed + res.filesFailed ∧
    res.filesValidated = res.validatedFiles.length ∧
    res.errors.length = res.filesFailed ∧
    ∀ e ∈ res.errors, ∃ f,
      f ∈ [({ filePath := "REPWRITERSPECS/GOOD.PO", status := "existing" } : ChangedFile)] ∧
      ∃ msg, e = basename f.filePath ++ ": " ++ msg) :=
  C1_result_invariants
    [{ filePath := "REPWRITERSPECS/GOOD.PO", status := "existing" }]
    (SSHRun.run (fun _ => Outcome.valid)) (HTTPsRun.run (fun _ => Outcome.valid))
    { filesValidated := 1, filesPassed := 1, filesFailed := 0,
      errors := [], validatedFiles := ["GOOD.PO"] }
    (Or.inl rfl)

/-- Claim C5: a per-file transport exception makes that file count as
failed, its message becomes the error entry attributed to the file's
basename, and the loop continues — every candidate is still attempted
and the batch yields a result with `filesValidated = |files|` under both
dispatchers. -/
theorem C5_exception_recovered (files : List ChangedFile) (t : Nat → Outcome)
    (j : Nat) (m : String) (hj : j < files.length)
    (ht : t j = Outcome.exception m) :
    ∃ res : ValidationResult,
      (validateWithSSH files (SSHRun.run t)).1 = Except.ok res ∧
      (validateWithHTTPs files (HTTPsRun.run t)).1 = Except.ok res ∧
      res.filesValidated = files.length ∧
      res.validatedFiles = files.map (fun f => basename f.filePath) ∧
      basename (files.get ⟨j, hj⟩).filePath ++ ": " ++ m ∈ res.errors ∧
      0 < res.filesFailed := by
  refine ⟨mkResult files
    (runLoop t 0 files { errors := [], validatedFiles := [], filesFailed := 0 }),
    rfl, rfl, rfl, ?_, ?_, ?_⟩
  · rw [runLoop_spec]
    simp [mkResult]
  · rw [runLoop_spec]
    simp only [mkResult, List.nil_append]
    exact loopErrors_exception_mem t files 0 j hj m (by simpa using ht)
  · rw [runLoop_spec]
    simp only [mkResult, Nat.zero_add]
    have hmem := loopErrors_exception_mem t files 0 j hj m (by simpa using ht)
    have hpos : 0 < (loopErrors t 0 files).length :=
      List.length_pos.mpr (List.ne_nil_of_mem hmem)
    rw [loopErrors_length] at hpos
    exact hpos

/-- Witness for C5 on a one-file batch whose only call rejects with a
connection timeout. -/
theorem C5_exception_recovered_witness :
    ∃ res : ValidationResult,
      (validateWithSSH [{ filePath := "REPWRITERSPECS/TEST.PO", status := "existing" }]
        (SSHRun.run (fun _ => Outcome.exception "Connection timeout"))).1 = Except.ok res ∧
      (validateWithHTTPs [{ filePath := "REPWRITERSPECS/TEST.PO", status := "existing" }]
        (HTTPsRun.run (fun _ => Outcome.exception "Connection timeout"))).1 = Except.ok res ∧
      res.filesValidated =
        ([{ filePath := "REPWRITERSPECS/TEST.PO", status := "existing" }] : List ChangedFile).length ∧
      res.validatedFiles =
        ([{ filePath := "REPWRITERSPECS/TEST.PO", status := "existing" }] : List ChangedFile).map
          (fun f => basename f.filePath) ∧
      basename (([{ filePath := "REPWRITERSPECS/TEST.PO", status := "existing" }] :
          List ChangedFile).get ⟨0, by decide⟩).filePath ++ ": " ++ "Connection timeout" ∈
        res.errors ∧
      0 < res.filesFailed :=
  C5_exception_recovered
    [{ filePath := "REPWRITERSPECS/TEST.PO", status := "existing" }]
    (fun _ => Outcome.exception "Connection timeout") 0 ("Connection timeout")
    (by decide) rfl

/-! ## Claims about the change-set resolver -/

theorem fullScanFilter_not_ignored (skipF : String → Option String)
    (ignoreList : List String) (workspace : String) :
    ∀ (fsl : List String) (c : ChangedFile),
      c ∈ fullScanFilter skipF ignoreList workspace fsl →
      ignoreList.contains (basename c.filePath) = false := by
  intro fsl
  induction fsl with
  | nil => intro c h; simp [fullScanFilter] at h
  | cons f rest ih =>
    intro c h
    simp only [fullScanFilter] at h
    by_cases hig : ignoreList.contains (basename f) = true
    · rw [if_pos hig] at h
      exact ih c h
    · rw [if_neg hig] at h
      cases hs : skipF (fullPath workspace f) with
      | some r =>
        rw [hs] at h
        exact ih c h
      | none =>
        rw [hs] at h
        rcases List.mem_cons.mp h with heq | htail
        · subst heq
          simpa using hig
        · exact ih c htail

theorem processDiffParts_not_ignored (skipF : String → Option String)
    (isPO : String → Bool) (ignoreList : List String) (workspace : String)
    (parts : List String) (c : ChangedFile)
    (h : processDiffParts skipF isPO ignoreList workspace parts = some c) :
    ignoreList.contains (basename c.filePath) = false := by
  cases parts with
  | nil => exact Option.noConfusion h
  | cons status rest =>
    cases rest with
    | nil => exact Option.noConfusion h
    | cons filePath rest2 =>
      simp only [processDiffParts] at h
      by_cases hD : status = "D"
      · rw [if_pos hD] at h; exact Option.noConfusion h
      rw [if_neg hD] at h
      by_cases hig : ignoreList.contains (basename filePath) = true
      · rw [if_pos hig] at h; exact Option.noConfusion h
      rw [if_neg hig] at h
      by_cases hpo : isPO filePath = true
      · rw [if_neg (by simp [hpo])] at h
        cases hs : skipF (fullPath workspace filePath) with
        | some r => rw [hs] at h; exact Option.noConfusion h
        | none =>
          rw [hs] at h
          have hc := Option.some.inj h
          rw [← hc]
          simpa using hig
      · rw [if_pos (by simp [Bool.of_not_eq_true hpo])] at h
        exact Option.noConfusion h

/-- Claim C9: under either resolution mode, a file whose basename is in
the ignore-list never appears in the candidate set returned by the
resolver. -/
theorem C9_ignored_never_candidate (findOutput : String) (revParse : String → Bool)
    (diffOut : String → String) (skipF : String → Option String)
    (isPO : String → Bool) (workspace tb : String) (ignoreList : List String)
    (cs : List ChangedFile)
    (h : getChangedFiles findOutput revParse diffOut skipF isPO workspace tb ignoreList =
      Except.ok cs) :
    ∀ c ∈ cs, ignoreList.contains (basename c.filePath) = false := by
  intro c hc
  unfold getChangedFiles at h
  by_cases htb : tb = ""
  · rw [if_pos htb] at h
    injection h with h2
    rw [← h2] at hc
    exact fullScanFilter_not_ignored skipF ignoreList workspace _ c hc
  · rw [if_neg htb] at h
    cases hr : resolveBranch revParse tb with
    | none => rw [hr] at h; exact Except.noConfusion h
    | some ref =>
      rw [hr] at h
      injection h with h2
      rw [← h2] at hc
      obtain ⟨line, hline, hproc⟩ := List.mem_filterMap.mp hc
      exact processDiffParts_not_ignored skipF isPO ignoreList workspace
        (jsSplit '\t' line) c hproc

/-- Witness for C9: a run mixing both an ignored find hit (full scan)
and an ignored diff line (diff mode) never emits the ignored file. -/
theorem C9_ignored_never_candidate_witness :
    getChangedFiles ("REPWRITERSPECS/KEEP.PO\nREPWRITERSPECS/IGNORE.PO\n")
      (fun _ => true) (fun _ => "") (fun _ => none) (fun _ => true) ("") ("")
      ["IGNORE.PO"] =
      Except.ok [{ filePath := "REPWRITERSPECS/KEEP.PO", status := "existing" }] ∧
    ["IGNORE.PO"].contains
      (basename ({ filePath := "REPWRITERSPECS/KEEP.PO", status := "existing" } :
        ChangedFile).filePath) = false := by
  refine ⟨by rfl, ?_⟩
  exact C9_ignored_never_candidate ("REPWRITERSPECS/KEEP.PO\nREPWRITERSPECS/IGNORE.PO\n")
    (fun _ => true) (fun _ => "") (fun _ => none) (fun _ => true) ("") ("")
    ["IGNORE.PO"] [{ filePath := "REPWRITERSPECS/KEEP.PO", status := "existing" }]
    (by rfl) _ (List.mem_singleton.mpr rfl)

/-- Claim C4: with a target branch supplied, resolution tries exactly the
five variants in their fixed order and the first variant accepted by
`git rev-parse --verify` becomes the diff base; when no variant
resolves, the run aborts with the fetch-with-full-history error and no
diff output is ever consulted. -/
theorem C4_branch_resolution (revParse : String → Bool) (tb : String) (hne : tb ≠ "") :
    (resolveBranch revParse tb =
      (if revParse tb then some tb
       else if revParse ("refs/remotes/origin/" ++ stripOrigin tb) then
         some ("refs/remotes/origin/" ++ stripOrigin tb)
       else if revParse (stripOrigin tb) then some (stripOrigin tb)
       else if revParse ("refs/heads/" ++ stripOrigin tb) then
         some ("refs/heads/" ++ stripOrigin tb)
       else if revParse ("remotes/origin/" ++ stripOrigin tb) then
         some ("remotes/origin/" ++ stripOrigin tb)
       else none)) ∧
    (∀ ref, resolveBranch revParse tb = some ref →
      ∀ (findOutput : String) (diffOut : String → String)
        (skipF : String → Option String) (isPO : String → Bool)
        (workspace : String) (ignoreList : List String),
        getChangedFiles findOutput revParse diffOut skipF isPO workspace tb ignoreList =
          Except.ok ((nonEmptyLines (diffOut ref)).filterMap
            (processDiffLine skipF isPO ignoreList workspace))) ∧
    (resolveBranch revParse tb = none →
      ∀ (findOutput : String) (diffOut : String → String)
        (skipF : String → Option String) (isPO : String → Bool)
        (workspace : String) (ignoreList : List String),
        getChangedFiles findOutput revParse diffOut skipF isPO workspace tb ignoreList =
          Except.error (branchNotFoundMsg tb)) := by
  refine ⟨?_, ?_, ?_⟩
  · simp only [resolveBranch, branchVariants]
    cases h1 : revParse tb <;>
      cases h2 : revParse ("refs/remotes/origin/" ++ stripOrigin tb) <;>
      cases h3 : revParse (stripOrigin tb) <;>
      cases h4 : revParse ("refs/heads/" ++ stripOrigin tb) <;>
      cases h5 : revParse ("remotes/origin/" ++ stripOrigin tb) <;>
      simp [List.find?, h1, h2, h3, h4, h5]
  · intro ref href findOutput diffOut skipF isPO workspace ignoreList
    unfold getChangedFiles
    rw [if_neg hne, href]
  · intro hnone findOutput diffOut skipF isPO workspace ignoreList
    unfold getChangedFiles
    rw [if_neg hne, hnone]

/-- Witness for C4: literal name and bare name fail but `refs/heads/main`
resolves for target branch `origin/main`, and a revParse that rejects
everything aborts with the branch-not-found error. -/
theorem C4_branch_resolution_witness :
    resolveBranch (fun v => v == "refs/heads/main") ("origin/main") =
      some ("refs/heads/main") ∧
    getChangedFiles ("") (fun v => v == "refs/heads/main")
      (fun r => if r == "refs/heads/main" then "M\tREPWRITERSPECS/A.PO\n" else "")
      (fun _ => none) (fun _ => true) ("") ("origin/main") [] =
      Except.ok [{ filePath := "REPWRITERSPECS/A.PO", status := "modified" }] ∧
    getChangedFiles ("") (fun _ => false) (fun _ => "") (fun _ => none)
      (fun _ => true) ("") ("origin/main") [] =
      Except.error (branchNotFoundMsg ("origin/main")) := by
  refine ⟨?_, ?_, ?_⟩
  · rw [(C4_branch_resolution (fun v => v == "refs/heads/main") ("origin/main")
      (by decide)).1]
    decide
  · rw [(C4_branch_resolution (fun v => v == "refs/heads/main") ("origin/main")
      (by decide)).2.1 ("refs/heads/main") (by decide) ("")
      (fun r => if r == "refs/heads/main" then "M\tREPWRITERSPECS/A.PO\n" else "")
      (fun _ => none) (fun _ => true) ("") []]
    exact congrArg Except.ok (by decide)
  · exact (C4_branch_resolution (fun _ => false) ("origin/main") (by decide)).2.2
      (by decide) ("") (fun _ => "") (fun _ => none) (fun _ => true) ("") []

/-- Claim C10: a diff line with three or more tab-separated fields (such
as a rename line) yields, when it survives the deleted/ignored/PowerOn
and skip checks, a candidate whose path is the second field — the
pre-rename old path — and whose status is the raw first field carried
verbatim (only `A` and `M` are normalized); a line with no tab at all
yields no candidate. -/
theorem C10_rename_line_uses_old_path (skipF : String → Option String)
    (isPO : String → Bool) (ignoreList : List String) (workspace : String) :
    (∀ (line s old nw : String) (rest : List String),
      jsSplit '\t' line = s :: old :: nw :: rest →
      s ≠ "A" → s ≠ "M" → s ≠ "D" →
      ignoreList.contains (basename old) = false →
      isPO old = true →
      skipF (fullPath workspace old) = none →
      processDiffLine skipF isPO ignoreList workspace line =
        some { filePath := old, status := s }) ∧
    (∀ line x, jsSplit '\t' line = [x] →
      processDiffLine skipF isPO ignoreList workspace line = none) := by
  constructor
  · intro line s old nw rest hsp hA hM hD hig hpo hskip
    have hig2 : basename old ∉ ignoreList := by simpa using hig
    unfold processDiffLine
    rw [hsp]
    simp [processDiffParts, hD, hig2, hpo, hskip, normalizeStatus, hA, hM]
  · intro line x hsp
    unfold processDiffLine
    rw [hsp]
    rfl

/-- Witness for C10 at a concrete rename line and a concrete tabless line. -/
theorem C10_rename_line_uses_old_path_witness :
    processDiffLine (fun _ => none) (fun _ => true) [] ("")
      ("R100\tREPWRITERSPECS/OLD.PO\tREPWRITERSPECS/NEW.PO") =
      some { filePath := "REPWRITERSPECS/OLD.PO", status := "R100" } ∧
    processDiffLine (fun _ => none) (fun _ => true) [] ("")
      ("line without any tab") = none := by
  constructor
  · exact (C10_rename_line_uses_old_path (fun _ => none) (fun _ => true) [] ("")).1
      ("R100\tREPWRITERSPECS/OLD.PO\tREPWRITERSPECS/NEW.PO") ("R100")
      ("REPWRITERSPECS/OLD.PO") ("REPWRITERSPECS/NEW.PO") []
      (by decide) (by decide) (by decide) (by decide) (by decide) rfl rfl
  · exact (C10_rename_line_uses_old_path (fun _ => none) (fun _ => true) [] ("")).2
      ("line without any tab") ("line without any tab") (by decide)

end PowerOnAction
